import Mathlib

/-!
Verification of `monitor_writeup.py`, a single-shot domain-monitoring script.

The script is shallowly embedded: every Python function becomes a Lean
function over explicit inputs.  External effects are modelled as data:

* the HTTP layer (`requests.get`) is an input of type `HttpResult`
  (a status code plus body, or a transport exception message);
* the filesystem is the optional contents of `domain_status.json`;
* the SMTP session is an input describing which of the five SMTP calls
  (constructor, starttls, login, sendmail, quit) raises;
* successive `datetime.now()` values are input strings;
* the Python `json` library (`json.dump` with `indent=2`, `json.load`) is
  modelled by an executable printer and parser over a `Json` value type.
  The model covers JSON without floating-point numbers (the script never
  stores floats); Python strings that are not valid Unicode (lone
  surrogates) are likewise outside the model, since Lean strings are
  sequences of Unicode scalar values.

Exceptions are modelled with `Except`: a Python function that can raise
an exception that its caller does not catch returns `Except String α`.
-/

namespace Monitor

/-! ## JSON values (model of the Python `json` module data) -/

/-- A JSON document as the Python `json` module represents it after
`json.load`: `None`, `bool`, `int`, `str`, `list`, `dict` (string keys,
insertion-ordered).  Floats are outside the model. -/
inductive Json where
  | null
  | bool (b : Bool)
  | num (n : Int)
  | str (s : String)
  | arr (xs : List Json)
  | obj (kvs : List (String × Json))

/-! ## Integer rendering (`str(int)` / JSON integer output) -/

/-- Decimal digits of a natural number, most significant first
(fuel-indexed so that it is structurally recursive and computes). -/
def natToDigitsAux : Nat → Nat → List Char → List Char
  | 0, _, acc => acc
  | fuel+1, n, acc =>
    if n < 10 then Nat.digitChar n :: acc
    else natToDigitsAux fuel (n / 10) (Nat.digitChar (n % 10) :: acc)

/-- Decimal digit string of a natural number, as Python prints it. -/
def natToDigits (n : Nat) : List Char := natToDigitsAux (n + 1) n []

/-- Python `str()` of an integer, also the JSON rendering of an integer. -/
def intRepr (n : Int) : String :=
  if n < 0 then String.mk ('-' :: natToDigits n.natAbs)
  else String.mk (natToDigits n.natAbs)

/-! ## String escaping (model of `json.dump`'s `ensure_ascii` encoder) -/

/-- Lower-case hex digit, as Python's `\uXXXX` escapes use. -/
def hexDig (n : Nat) : Char := Nat.digitChar n

/-- Four-digit hex rendering of `n < 0x10000`. -/
def hex4 (n : Nat) : List Char :=
  [hexDig (n / 4096), hexDig (n / 256 % 16), hexDig (n / 16 % 16), hexDig (n % 16)]

/-- Escape of a single character inside a JSON string literal, following
CPython's `py_encode_basestring_ascii` (the `ensure_ascii=True` default):
printable ASCII other than `"` and backslash is kept, the five C escapes
are used where available, everything else becomes `\uXXXX`, with a
surrogate pair for characters beyond the BMP. -/
def escChar (c : Char) : List Char :=
  if c = '"' then ['\\', '"']
  else if c = '\\' then ['\\', '\\']
  else if c = '\x08' then ['\\', 'b']
  else if c = '\t' then ['\\', 't']
  else if c = '\n' then ['\\', 'n']
  else if c = '\x0c' then ['\\', 'f']
  else if c = '\r' then ['\\', 'r']
  else if c.toNat < 0x20 then '\\' :: 'u' :: hex4 c.toNat
  else if c.toNat < 0x7f then [c]
  else if c.toNat < 0x10000 then '\\' :: 'u' :: hex4 c.toNat
  else
    ('\\' :: 'u' :: hex4 (0xd800 + (c.toNat - 0x10000) / 0x400)) ++
      ('\\' :: 'u' :: hex4 (0xdc00 + (c.toNat - 0x10000) % 0x400))

/-- Escape of a character sequence inside a JSON string literal. -/
def escStr : List Char → List Char
  | [] => []
  | c :: t => escChar c ++ escStr t

/-- A JSON string literal: quote, escaped body, quote. -/
def ppStr (s : String) : List Char := '"' :: (escStr s.data ++ ['"'])

/-- Indentation at nesting depth `d` under `indent=2`. -/
def ind (d : Nat) : List Char := List.replicate (2 * d) ' '

/-! ## Printing (model of `json.dump(value, f, indent=2)`) -/

mutual
/-- Characters written by `json.dump(v, f, indent=2)` for a value at
nesting depth `d` (with `indent=2` the separators are `','` and `': '`). -/
def ppV : Nat → Json → List Char
  | _, .null => ['n', 'u', 'l', 'l']
  | _, .bool true => ['t', 'r', 'u', 'e']
  | _, .bool false => ['f', 'a', 'l', 's', 'e']
  | _, .num n => (intRepr n).data
  | _, .str s => ppStr s
  | _, .arr [] => ['[', ']']
  | d, .arr (v :: vs) =>
    '[' :: '\n' :: (ind (d+1) ++ ppV (d+1) v ++ ppE (d+1) vs ++ '\n' :: (ind d ++ [']']))
  | _, .obj [] => ['\x7b', '\x7d']
  | d, .obj ((k, v) :: kvs) =>
    '\x7b' :: '\n' :: (ind (d+1) ++ ppStr k ++ ':' :: ' ' ::
      (ppV (d+1) v ++ ppM (d+1) kvs ++ '\n' :: (ind d ++ ['\x7d'])))
/-- Rendering of the second and later array elements: `,\n<indent><value>`. -/
def ppE : Nat → List Json → List Char
  | _, [] => []
  | d, v :: vs => ',' :: '\n' :: (ind d ++ ppV d v ++ ppE d vs)
/-- Rendering of the second and later object members: `,\n<indent><key>: <value>`. -/
def ppM : Nat → List (String × Json) → List Char
  | _, [] => []
  | d, (k, v) :: kvs => ',' :: '\n' :: (ind d ++ ppStr k ++ ':' :: ' ' :: (ppV d v ++ ppM d kvs))
end

/-- Model of `json.dump(j, f, indent=2)`: the full text written to the file. -/
def Json.dump (j : Json) : String := String.mk (ppV 0 j)

/-! ## Parsing (model of `json.load`) -/

/-- JSON whitespace, as `json.load` skips it. -/
def isWsChar (c : Char) : Bool := c = ' ' || c = '\t' || c = '\n' || c = '\r'

/-- Drop leading JSON whitespace. -/
def skipWs : List Char → List Char
  | [] => []
  | c :: t => if isWsChar c then skipWs t else c :: t

/-- Value of one hex digit (both cases accepted, as in `json.load`). -/
def hexVal (c : Char) : Option Nat :=
  if '0' ≤ c ∧ c ≤ '9' then some (c.toNat - 48)
  else if 'a' ≤ c ∧ c ≤ 'f' then some (c.toNat - 87)
  else if 'A' ≤ c ∧ c ≤ 'F' then some (c.toNat - 55)
  else none

/-- Read exactly four hex digits. -/
def readHex4 : List Char → Option (Nat × List Char)
  | a :: b :: c :: d :: rest =>
    match hexVal a, hexVal b, hexVal c, hexVal d with
    | some x, some y, some z, some w => some (((x * 16 + y) * 16 + z) * 16 + w, rest)
    | _, _, _, _ => none
  | _ => none

/-- Decode one backslash escape (the character after the backslash plus
the remaining input).  A `\uXXXX` high surrogate must be followed by a low
surrogate; Python would build a lone-surrogate string from an unpaired
one, which Lean strings cannot represent, so the model rejects it (such
input never arises from `json.dump` output). -/
def decodeEscape : Char → List Char → Option (Char × List Char)
  | c, r =>
    if c = '"' then some ('"', r)
    else if c = '\\' then some ('\\', r)
    else if c = '/' then some ('/', r)
    else if c = 'b' then some ('\x08', r)
    else if c = 'f' then some ('\x0c', r)
    else if c = 'n' then some ('\n', r)
    else if c = 'r' then some ('\r', r)
    else if c = 't' then some ('\t', r)
    else if c = 'u' then
      match readHex4 r with
      | none => none
      | some (n, r1) =>
        if n < 0xd800 then some (Char.ofNat n, r1)
        else if n ≤ 0xdbff then
          match r1 with
          | '\\' :: 'u' :: r2 =>
            match readHex4 r2 with
            | none => none
            | some (m, r3) =>
              if 0xdc00 ≤ m ∧ m ≤ 0xdfff then
                some (Char.ofNat (0x10000 + (n - 0xd800) * 0x400 + (m - 0xdc00)), r3)
              else none
          | _ => none
        else if n ≤ 0xdfff then none
        else some (Char.ofNat n, r1)
    else none

/-- Body of a JSON string literal after the opening quote (fuel-indexed):
the decoded characters plus the input after the closing quote.  Raw
control characters are rejected (`json.load` default `strict=True`). -/
def parseStrBody : Nat → List Char → Option (List Char × List Char)
  | 0, _ => none
  | fuel+1, s =>
    match s with
    | [] => none
    | c :: rest =>
      if c = '"' then some ([], rest)
      else if c = '\\' then
        match rest with
        | [] => none
        | e :: r =>
          match decodeEscape e r with
          | none => none
          | some (ch, r1) =>
            match parseStrBody fuel r1 with
            | none => none
            | some (cs, r2) => some (ch :: cs, r2)
      else if c.toNat < 0x20 then none
      else
        match parseStrBody fuel rest with
        | none => none
        | some (cs, r2) => some (c :: cs, r2)

/-- Parse of one string-literal body, with fuel taken from the input length
(one unit of fuel consumes at least one input character, so this always
suffices). -/
def parseStr (r : List Char) : Option (List Char × List Char) :=
  parseStrBody (r.length + 1) r

/-- Numeric value of a decimal digit character. -/
def digitVal (c : Char) : Nat := c.toNat - 48

/-- Longest prefix of decimal digits, plus the rest. -/
def takeDigits : List Char → List Char × List Char
  | [] => ([], [])
  | c :: t =>
    if c.isDigit then
      match takeDigits t with
      | (ds, r) => (c :: ds, r)
    else ([], c :: t)

/-- Value of a digit string. -/
def digitsVal (ds : List Char) : Nat := ds.foldl (fun a c => a * 10 + digitVal c) 0

/-- Would the next character extend a number token into a float? -/
def floatCont : List Char → Bool
  | [] => false
  | c :: _ => c = '.' || c = 'e' || c = 'E'

/-- Parse a JSON number token.  Model restriction: only integers (a
following `.`, `e` or `E` would start a float, which the model excludes;
the script never stores one). -/
def parseNum (s : List Char) : Option (Int × List Char) :=
  let p : Bool × List Char :=
    match s with
    | [] => (false, [])
    | c :: t => if c = '-' then (true, t) else (false, c :: t)
  match takeDigits p.2 with
  | ([], _) => none
  | (ds, r) =>
    if floatCont r then none
    else
      let v : Int := (digitsVal ds : Int)
      some (if p.1 then -v else v, r)

/-- Replace the value under an existing key, else append — exactly how a
Python `dict` built from a pair sequence treats a repeated key (first
position, last value). -/
def insertKey : List (String × Json) → String → Json → List (String × Json)
  | [], k, v => [(k, v)]
  | (k1, v1) :: t, k, v =>
    if k1 = k then (k1, v) :: t else (k1, v1) :: insertKey t k v

/-- `dict(pairs)`: fold the parsed members into a Python dict. -/
def mkDict (pairs : List (String × Json)) : List (String × Json) :=
  pairs.foldl (fun acc kv => insertKey acc kv.1 kv.2) []

mutual
/-- Fuel-indexed recursive-descent JSON value parser, modelling
`json.load` on the fragment of JSON without floats. -/
def parseVal : Nat → List Char → Option (Json × List Char)
  | 0, _ => none
  | fuel+1, s =>
    match skipWs s with
    | [] => none
    | c :: r =>
      if c = 'n' then
        match r with
        | 'u' :: 'l' :: 'l' :: r1 => some (.null, r1)
        | _ => none
      else if c = 't' then
        match r with
        | 'r' :: 'u' :: 'e' :: r1 => some (.bool true, r1)
        | _ => none
      else if c = 'f' then
        match r with
        | 'a' :: 'l' :: 's' :: 'e' :: r1 => some (.bool false, r1)
        | _ => none
      else if c = '"' then
        match parseStr r with
        | none => none
        | some (cs, r1) => some (.str (String.mk cs), r1)
      else if c = '[' then
        match skipWs r with
        | [] => none
        | c1 :: r1 =>
          if c1 = ']' then some (.arr [], r1)
          else
            match parseVal fuel (c1 :: r1) with
            | none => none
            | some (v, r2) =>
              match parseElems fuel r2 with
              | none => none
              | some (vs, r3) => some (.arr (v :: vs), r3)
      else if c = '\x7b' then
        match skipWs r with
        | [] => none
        | c1 :: r1 =>
          if c1 = '\x7d' then some (.obj [], r1)
          else if c1 = '"' then
            match parseStr r1 with
            | none => none
            | some (k, r2) =>
              match skipWs r2 with
              | [] => none
              | c2 :: r3 =>
                if c2 = ':' then
                  match parseVal fuel r3 with
                  | none => none
                  | some (v, r4) =>
                    match parseMembers fuel r4 with
                    | none => none
                    | some (kvs, r5) => some (.obj (mkDict ((String.mk k, v) :: kvs)), r5)
                else none
          else none
      else
        match parseNum (c :: r) with
        | none => none
        | some (n, r1) => some (.num n, r1)
/-- Second and later array elements: `, value ... ]`. -/
def parseElems : Nat → List Char → Option (List Json × List Char)
  | 0, _ => none
  | fuel+1, s =>
    match skipWs s with
    | [] => none
    | c :: r =>
      if c = ']' then some ([], r)
      else if c = ',' then
        match parseVal fuel r with
        | none => none
        | some (v, r1) =>
          match parseElems fuel r1 with
          | none => none
          | some (vs, r2) => some (v :: vs, r2)
      else none
/-- Second and later object members: `, "key": value ... closing brace`. -/
def parseMembers : Nat → List Char → Option (List (String × Json) × List Char)
  | 0, _ => none
  | fuel+1, s =>
    match skipWs s with
    | [] => none
    | c :: r =>
      if c = '\x7d' then some ([], r)
      else if c = ',' then
        match skipWs r with
        | [] => none
        | c1 :: r1 =>
          if c1 = '"' then
            match parseStr r1 with
            | none => none
            | some (k, r2) =>
              match skipWs r2 with
              | [] => none
              | c2 :: r3 =>
                if c2 = ':' then
                  match parseVal fuel r3 with
                  | none => none
                  | some (v, r4) =>
                    match parseMembers fuel r4 with
                    | none => none
                    | some (kvs, r5) => some ((String.mk k, v) :: kvs, r5)
                else none
          else none
      else none
end

/-- Model of `json.load` / `json.loads`: parse a complete document;
anything but trailing whitespace after the value is an error. -/
def Json.parse (s : String) : Option Json :=
  match parseVal (s.data.length + 1) s.data with
  | some (j, rest) => if skipWs rest = [] then some j else none
  | none => none

/-! ### Sanity checks of the `json` model on concrete documents -/

example : Json.parse "null" = some Json.null := rfl
example : Json.parse " -12 " = some (Json.num (-12)) := rfl
example : Json.parse "\x7b\"a\": [1, true, \"x\"]\x7d" =
    some (Json.obj [("a", Json.arr [Json.num 1, Json.bool true, Json.str "x"])]) := rfl
example : Json.parse "\x7b" = none := rfl
example : Json.parse "not json" = none := rfl
example : Json.dump (Json.obj [("a", Json.num 1), ("b", Json.arr [Json.num 2])]) =
    "\x7b\n  \"a\": 1,\n  \"b\": [\n    2\n  ]\n\x7d" := rfl
example : Json.parse (Json.dump (Json.obj [("t", Json.str "x"), ("w", Json.obj [])])) =
    some (Json.obj [("t", Json.str "x"), ("w", Json.obj [])]) := rfl

/-! ## Python string helpers used by the script -/

/-- Is the first list a prefix of the second? -/
def isPrefixL : List Char → List Char → Bool
  | [], _ => true
  | _ :: _, [] => false
  | a :: t1, b :: t2 => a == b && isPrefixL t1 t2

/-- Substring containment on character lists. -/
def hasSub (needle : List Char) : List Char → Bool
  | [] => isPrefixL needle []
  | c :: t => isPrefixL needle (c :: t) || hasSub needle t

/-- Python's `needle in hay` on strings. -/
def pyIn (needle hay : String) : Bool := hasSub needle.data hay.data

/-- Python's `str.lower()`.  (Modelled as ASCII lowering; the keyword
classification below only ever tests ASCII keywords.) -/
def pyLower (s : String) : String := String.mk (s.data.map Char.toLower)

/-- `s.encode('ascii', 'ignore').decode('ascii')`: drop non-ASCII characters. -/
def asciiClean (s : String) : String := String.mk (s.data.filter (fun c => c.toNat < 128))

/-! ## Python `==`, `str()` and `dict.get` on loaded JSON values -/

mutual
/-- Python `==` on loaded JSON values: structural, with the numeric-tower
quirk that `True == 1` and `False == 0`.  (Python dict equality ignores
order; the script never compares two dicts, so the container cases are
unexercised and ordered comparison suffices there.) -/
def pyEq : Json → Json → Bool
  | .null, .null => true
  | .bool a, .bool b => a == b
  | .bool a, .num m => (if a then (1 : Int) else 0) == m
  | .num n, .bool b => n == (if b then (1 : Int) else 0)
  | .num a, .num b => a == b
  | .str a, .str b => a == b
  | .arr a, .arr b => pyEqL a b
  | .obj a, .obj b => pyEqM a b
  | _, _ => false
/-- Pointwise Python `==` on lists. -/
def pyEqL : List Json → List Json → Bool
  | [], [] => true
  | a :: t1, b :: t2 => pyEq a b && pyEqL t1 t2
  | _, _ => false
/-- Pointwise Python `==` on dict entries. -/
def pyEqM : List (String × Json) → List (String × Json) → Bool
  | [], [] => true
  | (k1, v1) :: t1, (k2, v2) :: t2 => k1 == k2 && pyEq v1 v2 && pyEqM t1 t2
  | _, _ => false
end

mutual
/-- Python `repr()` of a loaded JSON value (container elements print with
`repr`; the string case is simplified to plain single quotes — the script
only ever formats scalar strings, so the simplification is unexercised). -/
def pyRepr : Json → String
  | .null => "None"
  | .bool true => "True"
  | .bool false => "False"
  | .num n => intRepr n
  | .str s => "\x27" ++ s ++ "\x27"
  | .arr xs => "[" ++ pyReprL xs ++ "]"
  | .obj kvs => "\x7b" ++ pyReprM kvs ++ "\x7d"
/-- Comma-separated `repr` of list elements. -/
def pyReprL : List Json → String
  | [] => ""
  | [x] => pyRepr x
  | x :: t => pyRepr x ++ ", " ++ pyReprL t
/-- Comma-separated `repr` of dict entries. -/
def pyReprM : List (String × Json) → String
  | [] => ""
  | [(k, v)] => "\x27" ++ k ++ "\x27: " ++ pyRepr v
  | (k, v) :: t => "\x27" ++ k ++ "\x27: " ++ pyRepr v ++ ", " ++ pyReprM t
end

/-- Python `str()` of a loaded JSON value, as an f-string renders it. -/
def pyStr : Json → String
  | .str s => s
  | .arr xs => "[" ++ pyReprL xs ++ "]"
  | .obj kvs => "\x7b" ++ pyReprM kvs ++ "\x7d"
  | j => pyRepr j

/-- `d.get(k, default)` on a Python dict. -/
def pyGetD (kvs : List (String × Json)) (k : String) (dflt : Json) : Json :=
  match kvs with
  | [] => dflt
  | (k1, v) :: t => if k1 = k then v else pyGetD t k dflt

/-- `d.get(k)`: the value under `k`, else `None`.  (A stored JSON `null` and
an absent key both yield Python `None`, so they coincide here, exactly as
in Python.) -/
def pyGet (kvs : List (String × Json)) (k : String) : Json := pyGetD kvs k Json.null

/-- Python `.get` exists only on dicts: calling it on anything else raises
`AttributeError`. -/
def asDict : Json → Except String (List (String × Json))
  | .obj kvs => Except.ok kvs
  | _ => Except.error "AttributeError"

/-! ## The script's configuration constants -/

/-- Module constant `DOMAIN`. -/
def DOMAIN : String := "writeup.ai"

/-- `EMAIL_CONFIG['smtp_server']`. -/
def smtp_server : String := "smtp.gmail.com"

/-- `EMAIL_CONFIG['smtp_port']`. -/
def smtp_port : Nat := 587

/-- The environment-derived part of `EMAIL_CONFIG`: `os.getenv` yields
`none` when the variable is unset. -/
structure EmailConfig where
  sender_email : Option String
  sender_password : Option String
  recipient : Option String

/-- Python truthiness of an `os.getenv` result, as `all([...])` tests it:
`None` and the empty string are falsy. -/
def truthy : Option String → Bool
  | none => false
  | some s => !(s == "")

/-! ## HTTP layer (model of `requests.get`) -/

/-- Outcome of a `requests.get` call: a response (status code and body
text), or a transport exception whose `str()` is `message`. -/
inductive HttpResult where
  | response (status_code : Nat) (text : String)
  | exn (message : String)

/-! ## `check_dropcatch_status` (lines 25-49) -/

/-- `check_dropcatch_status`: classify the DropCatch page for the domain.
The `try` block catches every exception; the only raising operation is the
`requests.get`, modelled by the `HttpResult` input. -/
def check_dropcatch_status (resp : HttpResult) : String :=
  match resp with
  | .response code text =>
    if code = 200 then
      let content := pyLower text
      if pyIn "backorder" content && pyIn "place a backorder" content then
        "AVAILABLE_FOR_BACKORDER"
      else if pyIn "no results" content || pyIn "not found" content then
        "NOT_AVAILABLE_YET"
      else if pyIn "auction" content then
        "IN_AUCTION"
      else
        "UNKNOWN_STATUS"
    else
      "ERROR_" ++ String.mk (natToDigits code)
  | .exn e => "ERROR: " ++ e

/-! ## `check_whois_status` (lines 51-84) -/

/-- `check_whois_status`: classify the whois.net page; returns the Python
dict (`status`/`checked_at`/`source` on HTTP 200, `error` otherwise).
`now_iso` is the `datetime.now().isoformat()` taken inside the function. -/
def check_whois_status (resp : HttpResult) (now_iso : String) : List (String × Json) :=
  match resp with
  | .response code text =>
    if code = 200 then
      let content := pyLower text
      let status :=
        if pyIn "pendingdelete" content || pyIn "pending delete" content then "pendingDelete"
        else if pyIn "redemption" content then "redemptionPeriod"
        else if pyIn "expired" content then "expired"
        else if pyIn "active" content then "active"
        else "unknown"
      [("status", Json.str status), ("checked_at", Json.str now_iso),
       ("source", Json.str "whois.net")]
    else
      [("error", Json.str ("HTTP " ++ String.mk (natToDigits code)))]
  | .exn e => [("error", Json.str e)]

/-! ## `send_simple_email` (lines 86-121) -/

/-- Which of the five SMTP operations (`smtplib.SMTP(...)`, `starttls`,
`login`, `sendmail`, `quit`) raises, and with what message. -/
structure SmtpBehavior where
  connectErr : Option String
  starttlsErr : Option String
  loginErr : Option String
  sendErr : Option String
  quitErr : Option String

/-- Body of `send_simple_email` under the `try`: the returned value or the
raised exception, together with whether `smtplib.SMTP(...)` was invoked
(an SMTP connection attempt).  Message building (f-strings and
`encode('ascii', 'ignore')`) cannot raise. -/
def send_simple_email_act (cfg : EmailConfig) (smtp : SmtpBehavior) :
    Except String Bool × Bool :=
  if truthy cfg.sender_email && truthy cfg.sender_password && truthy cfg.recipient then
    match smtp.connectErr with
    | some e => (Except.error e, true)
    | none =>
      match smtp.starttlsErr with
      | some e => (Except.error e, true)
      | none =>
        match smtp.loginErr with
        | some e => (Except.error e, true)
        | none =>
          match smtp.sendErr with
          | some e => (Except.error e, true)
          | none =>
            match smtp.quitErr with
            | some e => (Except.error e, true)
            | none => (Except.ok true, true)
  else (Except.ok false, false)

/-- `send_simple_email`: the `try`/`except Exception` wrapper returns
`False` instead of propagating any exception.  Result: (returned value,
SMTP connection attempted).  The subject and body do not influence the
control flow. -/
def send_simple_email (cfg : EmailConfig) (smtp : SmtpBehavior)
    (_subject _body : String) : Bool × Bool :=
  match send_simple_email_act cfg smtp with
  | (Except.ok b, att) => (b, att)
  | (Except.error _, att) => (false, att)

/-! ## Status store (lines 123-134) -/

/-- `load_previous_status`: reads `domain_status.json` and parses it.  The
input is the file's contents, or `none` when the file does not exist.
Only `FileNotFoundError` is caught (yielding `{}`); a JSON decode error
propagates to the caller. -/
def load_previous_status (file : Option String) : Except String Json :=
  match file with
  | none => Except.ok (Json.obj [])
  | some contents =>
    match Json.parse contents with
    | some j => Except.ok j
    | none => Except.error "json.decoder.JSONDecodeError"

/-- `save_current_status`: the exact contents written to
`domain_status.json` (`json.dump(status_data, f, indent=2)`). -/
def save_current_status (status_data : Json) : String := Json.dump status_data

/-! ## `main` (lines 136-204) -/

/-- All external inputs of one invocation of `main`. -/
structure MainInput where
  /-- Contents of `domain_status.json`, or `none` when the file is absent. -/
  file : Option String
  /-- Outcome of the `requests.get` against DropCatch. -/
  dropcatchHttp : HttpResult
  /-- Outcome of the `requests.get` against whois.net. -/
  whoisHttp : HttpResult
  /-- `datetime.now()` rendering at the start of `main`. -/
  t_start : String
  /-- `datetime.now().isoformat()` inside `check_whois_status`. -/
  t_whois : String
  /-- `datetime.now().isoformat()` stored in the new snapshot. -/
  t_snapshot : String
  /-- `datetime.now()` rendering inside the email body. -/
  t_email : String
  /-- Environment-derived email configuration. -/
  cfg : EmailConfig
  /-- Behaviour of the SMTP session. -/
  smtp : SmtpBehavior

/-- The observable outcome of a completed run of `main`. -/
structure RunResult where
  /-- The `changes` list. -/
  changes : List String
  /-- The `critical_alert` flag. -/
  critical_alert : Bool
  /-- `send_simple_email` was called. -/
  email_attempted : Bool
  /-- Value returned by `send_simple_email` (`false` when it was not called). -/
  email_returned : Bool
  /-- `smtplib.SMTP(...)` was invoked. -/
  smtp_attempted : Bool
  /-- Contents written to `domain_status.json`. -/
  file_contents : String
  /-- The first line `main` prints. -/
  checking_line : String
  /-- The final status printout (the last four printed lines). -/
  summary : List String

/-- The email body f-string of `main` (lines 174-191). -/
def emailBody (t_email : String) (changes : List String) (dropcatch_status : String)
    (whois_status : List (String × Json)) : String :=
  "Domain: " ++ DOMAIN ++ "\nTime: " ++ t_email ++
    "\nGitHub Action: https://github.com/bensethbell/writeup-ai-monitor/actions" ++
    "\n\nCHANGES DETECTED:\n" ++ String.intercalate "\n" changes ++
    "\n\nCURRENT STATUS:\n- DropCatch: " ++ dropcatch_status ++
    "\n- WHOIS Status: " ++ pyStr (pyGetD whois_status "status" (Json.str "error")) ++
    "\n\nACTION NEEDED:\n" ++
    (if dropcatch_status == "AVAILABLE_FOR_BACKORDER" then
      "DOMAIN IS AVAILABLE FOR BACKORDER ON DROPCATCH!"
    else "Continue monitoring...") ++
    "\n\nDirect DropCatch Link: https://www.dropcatch.com/domain/" ++ DOMAIN ++
    "\n\nNext check: Tomorrow at 9 AM UTC\n        "

/-- The pure tail of `main` (lines 138-204), given the loaded previous
dict and its (possibly defaulted) `whois` sub-dict. -/
def mainCore (inp : MainInput) (previous previous_whois : List (String × Json)) : RunResult :=
  let checking_line := "Checking " ++ DOMAIN ++ " status at " ++ inp.t_start
  let dropcatch_status := check_dropcatch_status inp.dropcatchHttp
  let whois_status := check_whois_status inp.whoisHttp inp.t_whois
  let current := Json.obj
    [("timestamp", Json.str inp.t_snapshot),
     ("dropcatch", Json.str dropcatch_status),
     ("whois", Json.obj whois_status)]
  let dcChanged := !pyEq (pyGet previous "dropcatch") (Json.str dropcatch_status)
  let changes1 : List String :=
    if dcChanged then
      ["DropCatch: " ++ pyStr (pyGetD previous "dropcatch" (Json.str "unknown")) ++
        " -> " ++ dropcatch_status]
    else []
  let critical1 := dcChanged && (dropcatch_status == "AVAILABLE_FOR_BACKORDER")
  let wChanged := !pyEq (pyGet previous_whois "status") (pyGet whois_status "status")
  let old_status := pyGetD previous_whois "status" (Json.str "unknown")
  let new_status := pyGetD whois_status "status" (Json.str "unknown")
  let changes2 : List String :=
    if wChanged then ["WHOIS: " ++ pyStr old_status ++ " -> " ++ pyStr new_status] else []
  let critical2 := wChanged &&
    (pyEq new_status (Json.str "pendingDelete") || pyEq new_status (Json.str "expired"))
  let changes := changes1 ++ changes2
  let critical_alert := critical1 || critical2
  let emailStep : Option (Bool × Bool) :=
    -- `if changes or True:` — the guard is short-circuited by the literal True
    if !changes.isEmpty || true then
      let urgency := if critical_alert then "URGENT" else "Update"
      let subject := urgency ++ ": " ++ DOMAIN ++ " Status Change!"
      let body := emailBody inp.t_email changes dropcatch_status whois_status
      some (send_simple_email inp.cfg inp.smtp subject body)
    else none
  let file_contents := save_current_status current
  let summary :=
    ["Current Status:",
     "   DropCatch: " ++ dropcatch_status,
     "   WHOIS: " ++ pyStr (pyGetD whois_status "status" (Json.str "error")),
     "Direct link: https://www.dropcatch.com/domain/" ++ DOMAIN]
  { changes := changes
    critical_alert := critical_alert
    email_attempted := emailStep.isSome
    email_returned := (emailStep.map Prod.fst).getD false
    smtp_attempted := (emailStep.map Prod.snd).getD false
    file_contents := file_contents
    checking_line := checking_line
    summary := summary }

/-- `main`: one monitoring run.  Exceptions nothing catches — a JSON decode
error raised by `load_previous_status`, or an `AttributeError` from calling
`.get` on a loaded non-dict — surface as `Except.error`; a normal run
returns the observable outcome.  (In the source the `AttributeError` on the
`whois` field would surface between the two comparison blocks; hoisting it
before the pure comparison code changes nothing observable, since the run
dies before printing or saving anything either way.) -/
def main (inp : MainInput) : Except String RunResult := do
  let previous_json ← load_previous_status inp.file
  let previous ← asDict previous_json
  let previous_whois ← asDict (pyGetD previous "whois" (Json.obj []))
  Except.ok (mainCore inp previous previous_whois)

/-! ## Auxiliary predicates for the round-trip development -/

/-- Does a dict (as a pair list) contain key `k`? -/
def keyMem (k : String) : List (String × Json) → Bool
  | [] => false
  | (k1, _) :: t => k1 == k || keyMem k t

/-- Keys pairwise distinct — every dict produced by Python satisfies this. -/
def nodupKeys : List (String × Json) → Bool
  | [] => true
  | (k, _) :: t => !keyMem k t && nodupKeys t

mutual
/-- A value every Python object can produce: all object key lists are
duplicate-free (a Python `dict` cannot hold a repeated key). -/
def wfV : Json → Bool
  | .arr xs => wfE xs
  | .obj kvs => nodupKeys kvs && wfM kvs
  | _ => true
/-- `wfV` on every element. -/
def wfE : List Json → Bool
  | [] => true
  | v :: vs => wfV v && wfE vs
/-- `wfV` on every member value. -/
def wfM : List (String × Json) → Bool
  | [] => true
  | (_, v) :: kvs => wfV v && wfM kvs
end

mutual
/-- Parser fuel needed for a value (one unit per parser call). -/
def wV : Json → Nat
  | .arr xs => 1 + wE xs
  | .obj kvs => 1 + wM kvs
  | _ => 1
/-- Fuel needed for the tail of an array. -/
def wE : List Json → Nat
  | [] => 1
  | v :: vs => 1 + wV v + wE vs
/-- Fuel needed for the tail of an object. -/
def wM : List (String × Json) → Nat
  | [] => 1
  | (_, v) :: kvs => 1 + wV v + wM kvs
end

/-- Input that may follow a printed value: end of input, or a separator or
newline — never a digit or a number continuation. -/
def GoodCont : List Char → Prop
  | [] => True
  | c :: _ => c = ',' ∨ c = '\n'

/-! ## Whitespace lemmas -/

theorem skipWs_cons_ws {c : Char} (t : List Char) (h : isWsChar c = true) :
    skipWs (c :: t) = skipWs t := by
  simp [skipWs, h]

theorem skipWs_cons_not_ws {c : Char} (t : List Char) (h : isWsChar c = false) :
    skipWs (c :: t) = c :: t := by
  simp [skipWs, h]

theorem skipWs_replicate_space (n : Nat) (s : List Char) :
    skipWs (List.replicate n ' ' ++ s) = skipWs s := by
  induction n with
  | zero => rfl
  | succ k ih =>
    rw [List.replicate_succ, List.cons_append, skipWs_cons_ws _ (by decide)]
    exact ih

theorem skipWs_ind_append (d : Nat) (s : List Char) : skipWs (ind d ++ s) = skipWs s :=
  skipWs_replicate_space (2 * d) s

theorem skipWs_newline_ind (d : Nat) (s : List Char) :
    skipWs ('\n' :: (ind d ++ s)) = skipWs s := by
  rw [skipWs_cons_ws _ (by decide), skipWs_ind_append]

/-! ## Decimal digit lemmas -/

theorem digitVal_digitChar {m : Nat} (h : m < 10) : digitVal (Nat.digitChar m) = m := by
  interval_cases m <;> decide

theorem isDigit_digitChar {m : Nat} (h : m < 10) : (Nat.digitChar m).isDigit = true := by
  interval_cases m <;> decide

theorem digitsVal_append_one (ds : List Char) (c : Char) :
    digitsVal (ds ++ [c]) = digitsVal ds * 10 + digitVal c := by
  simp [digitsVal, List.foldl_append]

/-- Core specification of `natToDigitsAux`: with enough fuel it produces the
decimal digits of `n` in front of the accumulator. -/
theorem natToDigitsAux_spec :
    ∀ n fuel acc, n < fuel →
      ∃ ds, natToDigitsAux fuel n acc = ds ++ acc ∧ ds ≠ [] ∧
        (∀ c ∈ ds, c.isDigit = true) ∧ digitsVal ds = n := by
  intro n
  induction n using Nat.strong_induction_on with
  | _ n ih =>
    intro fuel acc hlt
    match fuel, hlt with
    | fuel + 1, hlt =>
      by_cases hn : n < 10
      · exact ⟨[Nat.digitChar n], by simp [natToDigitsAux, hn], by simp,
          by simpa using isDigit_digitChar hn,
          by simpa [digitsVal] using digitVal_digitChar hn⟩
      · have hdiv_n : n / 10 < n := Nat.div_lt_self (by omega) (by omega)
        have hdiv_fuel : n / 10 < fuel := by omega
        obtain ⟨ds, heq, hne, hdig, hval⟩ :=
          ih (n / 10) hdiv_n fuel (Nat.digitChar (n % 10) :: acc) hdiv_fuel
        refine ⟨ds ++ [Nat.digitChar (n % 10)], ?_, by simp, ?_, ?_⟩
        · simp [natToDigitsAux, hn, heq]
        · intro c hc
          rcases List.mem_append.mp hc with h1 | h1
          · exact hdig c h1
          · simp only [List.mem_singleton] at h1
            subst h1
            exact isDigit_digitChar (Nat.mod_lt _ (by omega))
        · rw [digitsVal_append_one, hval, digitVal_digitChar (Nat.mod_lt _ (by omega))]
          omega

theorem natToDigits_spec (n : Nat) :
    natToDigits n ≠ [] ∧ (∀ c ∈ natToDigits n, c.isDigit = true) ∧
      digitsVal (natToDigits n) = n := by
  obtain ⟨ds, heq, hne, hdig, hval⟩ := natToDigitsAux_spec n (n + 1) [] (by omega)
  unfold natToDigits
  rw [heq, List.append_nil]
  exact ⟨hne, hdig, hval⟩

/-! ## Number-token lemmas -/

theorem isDigit_not_ws {c : Char} (h : c.isDigit = true) : isWsChar c = false := by
  revert h
  simp only [Char.isDigit, isWsChar, decide_eq_true_eq, Bool.and_eq_true,
    Bool.or_eq_false_iff, decide_eq_false_iff_not]
  intro h
  constructor
  · constructor
    · constructor
      · rintro rfl; revert h; decide
      · rintro rfl; revert h; decide
    · rintro rfl; revert h; decide
  · rintro rfl; revert h; decide

theorem isDigit_ne {c x : Char} (h : c.isDigit = true) (hx : x.isDigit = false) : c ≠ x := by
  rintro rfl
  rw [h] at hx
  exact Bool.noConfusion hx

/-- Head-shape that cleanly ends a number token. -/
def NumStop : List Char → Prop
  | [] => True
  | c :: _ => c.isDigit = false ∧ c ≠ '.' ∧ c ≠ 'e' ∧ c ≠ 'E'

theorem takeDigits_exact :
    ∀ ds rest, (∀ c ∈ ds, c.isDigit = true) →
      (∀ c t, rest = c :: t → c.isDigit = false) →
      takeDigits (ds ++ rest) = (ds, rest) := by
  intro ds
  induction ds with
  | nil =>
    intro rest _ hrest
    match rest with
    | [] => rfl
    | c :: t => simp [takeDigits, hrest c t rfl]
  | cons c t ih =>
    intro rest hds hrest
    have hc : c.isDigit = true := hds c (by simp)
    have ht := ih rest (fun x hx => hds x (by simp [hx])) hrest
    simp [takeDigits, hc, ht]

theorem GoodCont_NumStop {rest : List Char} (h : GoodCont rest) : NumStop rest := by
  match rest with
  | [] => trivial
  | c :: t =>
    rcases h with h | h <;> subst h <;> exact ⟨by decide, by decide, by decide, by decide⟩

theorem data_mk (l : List Char) : (String.mk l).data = l := rfl

theorem parseNum_print (n : Int) (rest : List Char) (h : NumStop rest) :
    parseNum ((intRepr n).data ++ rest) = some (n, rest) := by
  obtain ⟨hne, hdig, hval⟩ := natToDigits_spec n.natAbs
  have htd := takeDigits_exact (natToDigits n.natAbs) rest hdig
    (fun c t he => by subst he; exact h.1)
  have hifl : floatCont rest = false := by
    cases rest with
    | nil => rfl
    | cons c t =>
      simp only [floatCont, Bool.or_eq_false_iff, decide_eq_false_iff_not]
      exact ⟨⟨h.2.1, h.2.2.1⟩, h.2.2.2⟩
  match hds : natToDigits n.natAbs with
  | [] => exact absurd hds hne
  | d :: ds =>
    rw [hds] at htd hval
    have hd : d.isDigit = true := by
      rw [hds] at hdig
      exact hdig d (by simp)
    rw [List.cons_append] at htd
    by_cases hneg : n < 0
    · have hdata : (intRepr n).data = '-' :: (d :: ds) := by
        rw [intRepr, if_pos hneg, data_mk, hds]
      have hcast : ((digitsVal (d :: ds) : Int)) = -n := by rw [hval]; omega
      rw [hdata]
      simp [parseNum, List.cons_append, htd, hifl, hcast]
    · have hdata : (intRepr n).data = d :: ds := by
        rw [intRepr, if_neg hneg, data_mk, hds]
      have hdne : d ≠ '-' := isDigit_ne hd (by decide)
      have hcast : ((digitsVal (d :: ds) : Int)) = n := by rw [hval]; omega
      rw [hdata]
      simp [parseNum, List.cons_append, htd, hifl, hcast, hdne]

/-! ## Hex-digit and escape lemmas -/

theorem hexVal_digitChar {m : Nat} (h : m < 16) : hexVal (Nat.digitChar m) = some m := by
  interval_cases m <;> decide

theorem readHex4_hex4 (n : Nat) (rest : List Char) (h : n < 0x10000) :
    readHex4 (hex4 n ++ rest) = some (n, rest) := by
  have h1 : n / 4096 < 16 := by omega
  have h2 : n / 256 % 16 < 16 := Nat.mod_lt _ (by omega)
  have h3 : n / 16 % 16 < 16 := Nat.mod_lt _ (by omega)
  have h4 : n % 16 < 16 := Nat.mod_lt _ (by omega)
  have harith : ((n / 4096 * 16 + n / 256 % 16) * 16 + n / 16 % 16) * 16 + n % 16 = n := by
    omega
  simp only [hex4, hexDig, List.cons_append, List.nil_append, readHex4,
    hexVal_digitChar h1, hexVal_digitChar h2, hexVal_digitChar h3, hexVal_digitChar h4,
    harith]

theorem char_valid (c : Char) : c.toNat < 0xd800 ∨ (0xdfff < c.toNat ∧ c.toNat < 0x110000) :=
  c.valid

theorem parseStrBody_backslash (fuel : Nat) (e : Char) (r : List Char) :
    parseStrBody (fuel + 1) ('\\' :: e :: r) =
      match decodeEscape e r with
      | none => none
      | some (ch, r1) =>
        match parseStrBody fuel r1 with
        | none => none
        | some (cs, r2) => some (ch :: cs, r2) := by
  simp [parseStrBody]

/-- One escaped character parses back to itself (and the parse continues). -/
theorem escChar_parse (c : Char) (tail : List Char) (fuel : Nat) :
    parseStrBody (fuel + 1) (escChar c ++ tail) =
      (parseStrBody fuel tail).map (fun p => (c :: p.1, p.2)) := by
  have hmap : ∀ o : Option (List Char × List Char),
      (match o with
        | none => none
        | some (cs, r2) => some (c :: cs, r2)) = o.map (fun p => (c :: p.1, p.2)) := by
    intro o
    cases o with
    | none => rfl
    | some p => cases p; rfl
  by_cases h1 : c = '"'
  · subst h1
    simp [escChar, parseStrBody, decodeEscape, hmap]
  by_cases h2 : c = '\\'
  · subst h2
    simp [escChar, parseStrBody, decodeEscape, hmap]
  by_cases h3 : c = '\x08'
  · subst h3
    simp [escChar, parseStrBody, decodeEscape, hmap]
  by_cases h4 : c = '\t'
  · subst h4
    simp [escChar, parseStrBody, decodeEscape, hmap]
  by_cases h5 : c = '\n'
  · subst h5
    simp [escChar, parseStrBody, decodeEscape, hmap]
  by_cases h6 : c = '\x0c'
  · subst h6
    simp [escChar, parseStrBody, decodeEscape, hmap]
  by_cases h7 : c = '\r'
  · subst h7
    simp [escChar, parseStrBody, decodeEscape, hmap]
  by_cases h8 : c.toNat < 0x20
  · have hesc : escChar c = '\\' :: 'u' :: hex4 c.toNat := by
      simp [escChar, h1, h2, h3, h4, h5, h6, h7, h8]
    rw [hesc]
    have hrd := readHex4_hex4 c.toNat tail (by omega)
    simp [parseStrBody, decodeEscape, hrd, (by omega : c.toNat < 0xd800),
      Char.ofNat_toNat, hmap]
  by_cases h9 : c.toNat < 0x7f
  · have hesc : escChar c = [c] := by
      simp [escChar, h1, h2, h3, h4, h5, h6, h7, h8, h9]
    rw [hesc]
    simp [parseStrBody, h1, h2, h8, hmap]
  by_cases h10 : c.toNat < 0x10000
  · have hesc : escChar c = '\\' :: 'u' :: hex4 c.toNat := by
      simp [escChar, h1, h2, h3, h4, h5, h6, h7, h8, h9, h10]
    rw [hesc]
    have hrd := readHex4_hex4 c.toNat tail h10
    have hdec : decodeEscape 'u' (hex4 c.toNat ++ tail) = some (c, tail) := by
      rcases char_valid c with hv | hv
      · simp [decodeEscape, hrd, hv, Char.ofNat_toNat]
      · have ha : ¬c.toNat < 0xd800 := by omega
        have hb : ¬c.toNat ≤ 0xdbff := by omega
        have hc2 : ¬c.toNat ≤ 0xdfff := by omega
        simp [decodeEscape, hrd, ha, hb, hc2, Char.ofNat_toNat]
    simp [parseStrBody, hdec, hmap]
  · have hv : c.toNat < 0x110000 := by
      rcases char_valid c with hv | hv <;> omega
    have hesc : escChar c =
        ('\\' :: 'u' :: hex4 (0xd800 + (c.toNat - 0x10000) / 0x400)) ++
          ('\\' :: 'u' :: hex4 (0xdc00 + (c.toNat - 0x10000) % 0x400)) := by
      simp [escChar, h1, h2, h3, h4, h5, h6, h7, h8, h9, h10]
    rw [hesc]
    have hmod : (c.toNat - 0x10000) % 0x400 < 0x400 :=
      Nat.mod_lt _ (by omega)
    have hhi : 0xd800 + (c.toNat - 0x10000) / 0x400 < 0x10000 := by omega
    have hlo : 0xdc00 + (c.toNat - 0x10000) % 0x400 < 0x10000 := by omega
    have hrd1 := readHex4_hex4 (0xd800 + (c.toNat - 0x10000) / 0x400)
      ('\\' :: 'u' :: (hex4 (0xdc00 + (c.toNat - 0x10000) % 0x400) ++ tail)) hhi
    have hrd2 := readHex4_hex4 (0xdc00 + (c.toNat - 0x10000) % 0x400) tail hlo
    have ha : ¬0xd800 + (c.toNat - 0x10000) / 0x400 < 0xd800 := by omega
    have hb : 0xd800 + (c.toNat - 0x10000) / 0x400 ≤ 0xdbff := by omega
    have hc2 : 0xdc00 ≤ 0xdc00 + (c.toNat - 0x10000) % 0x400 := by omega
    have hd2 : 0xdc00 + (c.toNat - 0x10000) % 0x400 ≤ 0xdfff := by omega
    have hcomb : 0x10000 +
        (0xd800 + (c.toNat - 0x10000) / 0x400 - 0xd800) * 0x400 +
        (0xdc00 + (c.toNat - 0x10000) % 0x400 - 0xdc00) = c.toNat := by
      omega
    have hcomb2 : 0x10000 + (c.toNat - 0x10000) / 0x400 * 0x400 +
        (c.toNat - 0x10000) % 0x400 = c.toNat := by
      omega
    have hdec : decodeEscape 'u'
        (hex4 (0xd800 + (c.toNat - 0x10000) / 0x400) ++
          ('\\' :: 'u' :: (hex4 (0xdc00 + (c.toNat - 0x10000) % 0x400) ++ tail))) =
        some (c, tail) := by
      simp [decodeEscape, hrd1, hrd2, ha, hb, hc2, hd2, hcomb, hcomb2, Char.ofNat_toNat]
    simp only [List.cons_append, List.append_assoc]
    rw [parseStrBody_backslash, hdec]
    exact hmap _

theorem escChar_length_pos (c : Char) : 1 ≤ (escChar c).length := by
  unfold escChar
  repeat' split
  all_goals simp [hex4]

theorem escStr_length (cs : List Char) : cs.length ≤ (escStr cs).length := by
  induction cs with
  | nil => simp [escStr]
  | cons c t ih =>
    have := escChar_length_pos c
    simp only [escStr, List.length_append, List.length_cons]
    omega

/-- A fully escaped string body followed by the closing quote parses back
to the original characters. -/
theorem escStr_parse :
    ∀ (cs tail : List Char) (fuel : Nat), cs.length < fuel →
      parseStrBody fuel (escStr cs ++ ('"' :: tail)) = some (cs, tail) := by
  intro cs
  induction cs with
  | nil =>
    intro tail fuel hf
    match fuel, hf with
    | f + 1, _ => simp [escStr, parseStrBody]
  | cons c t ih =>
    intro tail fuel hf
    match fuel, hf with
    | f + 1, hf =>
      have hlen : t.length < f := by
        simp only [List.length_cons] at hf
        omega
      rw [escStr, List.append_assoc, escChar_parse c _ f, ih tail f hlen]
      rfl

/-! ## Dict-building lemmas -/

theorem insertKey_notMem :
    ∀ (acc : List (String × Json)) (k : String) (v : Json), keyMem k acc = false →
      insertKey acc k v = acc ++ [(k, v)] := by
  intro acc
  induction acc with
  | nil => intro k v _; rfl
  | cons p t ih =>
    intro k v h
    match p with
    | (k1, v1) =>
      simp only [keyMem, Bool.or_eq_false_iff] at h
      have hne : k1 ≠ k := by simpa using h.1
      simp [insertKey, hne, ih k v h.2]

theorem keyMem_append (k : String) (a b : List (String × Json)) :
    keyMem k (a ++ b) = (keyMem k a || keyMem k b) := by
  induction a with
  | nil => simp [keyMem]
  | cons p t ih =>
    cases p
    simp [keyMem, ih, Bool.or_assoc]

theorem mkDict_go :
    ∀ (kvs acc : List (String × Json)), nodupKeys kvs = true →
      (∀ k2, keyMem k2 kvs = true → keyMem k2 acc = false) →
      List.foldl (fun acc kv => insertKey acc kv.1 kv.2) acc kvs = acc ++ kvs := by
  intro kvs
  induction kvs with
  | nil => intro acc _ _; simp
  | cons p t ih =>
    intro acc hnd hdisj
    match p with
    | (k, v) =>
      simp only [nodupKeys, Bool.and_eq_true, Bool.not_eq_true'] at hnd
      have hk : keyMem k acc = false := hdisj k (by simp [keyMem])
      simp only [List.foldl_cons]
      rw [show insertKey acc (k, v).1 (k, v).2 = insertKey acc k v from rfl,
        insertKey_notMem acc k v hk]
      rw [ih (acc ++ [(k, v)]) hnd.2 ?_]
      · simp
      · intro k2 hk2
        rw [keyMem_append]
        have h1 : keyMem k2 acc = false := hdisj k2 (by simp [keyMem, hk2])
        have hne : k ≠ k2 := by
          intro he
          rw [he] at hnd
          rw [hk2] at hnd
          exact Bool.noConfusion hnd.1
        have h2 : keyMem k2 [(k, v)] = false := by simp [keyMem, hne]
        simp [h1, h2]

theorem mkDict_nodup (kvs : List (String × Json)) (h : nodupKeys kvs = true) :
    mkDict kvs = kvs := by
  have hmk := mkDict_go kvs [] h (fun k2 _ => rfl)
  simpa [mkDict] using hmk

/-! ## Weight lemmas -/

theorem wV_pos (j : Json) : 1 ≤ wV j := by
  cases j <;> simp [wV]

theorem wE_pos (vs : List Json) : 1 ≤ wE vs := by
  cases vs with
  | nil => simp [wE]
  | cons v t => simp only [wE]; omega

theorem wM_pos (kvs : List (String × Json)) : 1 ≤ wM kvs := by
  cases kvs with
  | nil => simp [wM]
  | cons p t =>
    cases p
    simp only [wM]
    omega

theorem intRepr_length_pos (n : Int) : 1 ≤ (intRepr n).data.length := by
  obtain ⟨hne, -, -⟩ := natToDigits_spec n.natAbs
  have hl : 0 < (natToDigits n.natAbs).length := List.length_pos.mpr hne
  unfold intRepr
  split_ifs
  · simp [data_mk]
  · simp [data_mk]
    omega

mutual
theorem wV_le_len : ∀ (j : Json) (d : Nat), wV j ≤ (ppV d j).length
  | .null, d => by simp [wV, ppV]
  | .bool b, d => by cases b <;> simp [wV, ppV]
  | .num n, d => by
    have h := intRepr_length_pos n
    simpa [wV, ppV] using h
  | .str s, d => by simp [wV, ppV, ppStr]
  | .arr [], d => by simp [wV, wE, ppV]
  | .arr (v :: vs), d => by
    have h1 := wV_le_len v (d+1)
    have h2 := wE_le_len vs (d+1)
    simp only [wV, wE, ppV, List.length_cons, List.length_append, ind,
      List.length_replicate]
    omega
  | .obj [], d => by simp [wV, wM, ppV]
  | .obj ((k, v) :: kvs), d => by
    have h1 := wV_le_len v (d+1)
    have h2 := wM_le_len kvs (d+1)
    simp only [wV, wM, ppV, ppStr, List.length_cons, List.length_append, ind,
      List.length_replicate]
    omega
theorem wE_le_len : ∀ (vs : List Json) (d : Nat), wE vs ≤ (ppE d vs).length + 1
  | [], d => by simp [wE, ppE]
  | v :: vs, d => by
    have h1 := wV_le_len v d
    have h2 := wE_le_len vs d
    simp only [wE, ppE, List.length_cons, List.length_append, ind, List.length_replicate]
    omega
theorem wM_le_len : ∀ (kvs : List (String × Json)) (d : Nat), wM kvs ≤ (ppM d kvs).length + 1
  | [], d => by simp [wM, ppM]
  | (k, v) :: kvs, d => by
    have h1 := wV_le_len v d
    have h2 := wM_le_len kvs d
    simp only [wM, ppM, ppStr, List.length_cons, List.length_append, ind,
      List.length_replicate]
    omega
end

/-! ## Head shape of printed values -/

theorem intRepr_head (n : Int) :
    ∃ c t, (intRepr n).data = c :: t ∧ (c = '-' ∨ c.isDigit = true) := by
  obtain ⟨hne, hdig, -⟩ := natToDigits_spec n.natAbs
  by_cases hneg : n < 0
  · exact ⟨'-', natToDigits n.natAbs, by rw [intRepr, if_pos hneg, data_mk], Or.inl rfl⟩
  · match hds : natToDigits n.natAbs with
    | [] => exact absurd hds hne
    | c :: t =>
      have hc : c.isDigit = true := by
        rw [hds] at hdig
        exact hdig c (by simp)
      exact ⟨c, t, by rw [intRepr, if_neg hneg, data_mk, hds], Or.inr hc⟩

/-- Every printed value starts with a non-whitespace character that is not a
closing bracket or separator. -/
theorem ppV_head (d : Nat) (j : Json) :
    ∃ c t, ppV d j = c :: t ∧ isWsChar c = false ∧ c ≠ ']' ∧ c ≠ '\x7d' ∧ c ≠ ',' := by
  cases j with
  | null => exact ⟨'n', _, rfl, by decide, by decide, by decide, by decide⟩
  | bool b =>
    cases b
    · exact ⟨'f', _, rfl, by decide, by decide, by decide, by decide⟩
    · exact ⟨'t', _, rfl, by decide, by decide, by decide, by decide⟩
  | num n =>
    obtain ⟨c, t, hdata, hc⟩ := intRepr_head n
    refine ⟨c, t, by rw [show ppV d (.num n) = (intRepr n).data from rfl, hdata], ?_, ?_, ?_, ?_⟩
    · rcases hc with rfl | hdg
      · decide
      · exact isDigit_not_ws hdg
    · rcases hc with rfl | hdg
      · decide
      · exact isDigit_ne hdg (by decide)
    · rcases hc with rfl | hdg
      · decide
      · exact isDigit_ne hdg (by decide)
    · rcases hc with rfl | hdg
      · decide
      · exact isDigit_ne hdg (by decide)
  | str s => exact ⟨'"', _, rfl, by decide, by decide, by decide, by decide⟩
  | arr xs =>
    cases xs
    · exact ⟨'[', _, rfl, by decide, by decide, by decide, by decide⟩
    · exact ⟨'[', _, rfl, by decide, by decide, by decide, by decide⟩
  | obj kvs =>
    cases kvs with
    | nil => exact ⟨'\x7b', _, rfl, by decide, by decide, by decide, by decide⟩
    | cons p t =>
      cases p
      exact ⟨'\x7b', _, rfl, by decide, by decide, by decide, by decide⟩

/-! ## Continuation shapes -/

theorem mk_data_eta (s : String) : String.mk s.data = s := rfl

theorem goodCont_arrTail (d e : Nat) (vs : List Json) (rest : List Char) :
    GoodCont (ppE d vs ++ '\n' :: (ind e ++ ']' :: rest)) := by
  cases vs with
  | nil => exact Or.inr rfl
  | cons v t => exact Or.inl rfl

theorem goodCont_objTail (d e : Nat) (kvs : List (String × Json)) (rest : List Char) :
    GoodCont (ppM d kvs ++ '\n' :: (ind e ++ '\x7d' :: rest)) := by
  cases kvs with
  | nil => exact Or.inr rfl
  | cons p t =>
    cases p
    exact Or.inl rfl

theorem parseVal_skipWs_eq (fuel : Nat) (s1 s2 : List Char) (h : skipWs s1 = skipWs s2) :
    parseVal fuel s1 = parseVal fuel s2 := by
  cases fuel with
  | zero => rfl
  | succ f => simp only [parseVal, h]

theorem parseStr_print (cs tail : List Char) :
    parseStr (escStr cs ++ ('"' :: tail)) = some (cs, tail) := by
  apply escStr_parse
  have := escStr_length cs
  simp only [List.length_append, List.length_cons]
  omega

/-! ## The round-trip of printing and parsing -/

/-- Printed values, array tails and object tails parse back exactly, given
fuel at least their weight. -/
theorem parse_print_aux : ∀ fuel : Nat,
    (∀ (j : Json) (d : Nat) (rest : List Char), wV j ≤ fuel → wfV j = true → GoodCont rest →
      parseVal fuel (ppV d j ++ rest) = some (j, rest)) ∧
    (∀ (vs : List Json) (d e : Nat) (rest : List Char), wE vs ≤ fuel → wfE vs = true →
      parseElems fuel (ppE d vs ++ '\n' :: (ind e ++ ']' :: rest)) = some (vs, rest)) ∧
    (∀ (kvs : List (String × Json)) (d e : Nat) (rest : List Char), wM kvs ≤ fuel →
      wfM kvs = true →
      parseMembers fuel (ppM d kvs ++ '\n' :: (ind e ++ '\x7d' :: rest)) = some (kvs, rest)) := by
  intro fuel
  induction fuel with
  | zero =>
    refine ⟨fun j _ _ hw _ _ => absurd hw ?_, fun vs _ _ _ hw _ => absurd hw ?_,
      fun kvs _ _ _ hw _ => absurd hw ?_⟩
    · have := wV_pos j
      omega
    · have := wE_pos vs
      omega
    · have := wM_pos kvs
      omega
  | succ f ih =>
    obtain ⟨ihV, ihE, ihM⟩ := ih
    refine ⟨?_, ?_, ?_⟩
    · -- values
      intro j d rest hw hwf hg
      cases j with
      | null =>
        show parseVal (f+1) ((['n', 'u', 'l', 'l'] : List Char) ++ rest) = some (.null, rest)
        simp [parseVal, skipWs_cons_not_ws, isWsChar]
      | bool b =>
        cases b
        · show parseVal (f+1) ((['f', 'a', 'l', 's', 'e'] : List Char) ++ rest) =
            some (.bool false, rest)
          simp [parseVal, skipWs_cons_not_ws, isWsChar]
        · show parseVal (f+1) ((['t', 'r', 'u', 'e'] : List Char) ++ rest) =
            some (.bool true, rest)
          simp [parseVal, skipWs_cons_not_ws, isWsChar]
      | num n =>
        obtain ⟨c, t, hdata, hc⟩ := intRepr_head n
        have hnw : isWsChar c = false := by
          rcases hc with rfl | hdg
          · decide
          · exact isDigit_not_ws hdg
        have hne6 : c ≠ 'n' ∧ c ≠ 't' ∧ c ≠ 'f' ∧ c ≠ '"' ∧ c ≠ '[' ∧ c ≠ '\x7b' := by
          rcases hc with rfl | hdg
          · exact ⟨by decide, by decide, by decide, by decide, by decide, by decide⟩
          · exact ⟨isDigit_ne hdg (by decide), isDigit_ne hdg (by decide),
              isDigit_ne hdg (by decide), isDigit_ne hdg (by decide),
              isDigit_ne hdg (by decide), isDigit_ne hdg (by decide)⟩
        have hpn : parseNum (c :: (t ++ rest)) = some (n, rest) := by
          rw [← List.cons_append, ← hdata]
          exact parseNum_print n rest (GoodCont_NumStop hg)
        show parseVal (f+1) ((intRepr n).data ++ rest) = some (.num n, rest)
        rw [hdata]
        simp [parseVal, List.cons_append, skipWs_cons_not_ws _ hnw, hne6.1, hne6.2.1,
          hne6.2.2.1, hne6.2.2.2.1, hne6.2.2.2.2.1, hne6.2.2.2.2.2, hpn]
      | str s =>
        show parseVal (f+1) (('"' :: (escStr s.data ++ ['"'])) ++ rest) = some (.str s, rest)
        have hq : isWsChar '"' = false := by decide
        have hsb : parseStr (escStr s.data ++ ('"' :: rest)) = some (s.data, rest) :=
          parseStr_print s.data rest
        simp [parseVal, List.cons_append, List.append_assoc, skipWs_cons_not_ws _ hq,
          hsb, mk_data_eta]
      | arr xs =>
        cases xs with
        | nil =>
          show parseVal (f+1) ((['[', ']'] : List Char) ++ rest) = some (.arr [], rest)
          simp [parseVal, skipWs_cons_not_ws, isWsChar]
        | cons v vs =>
          obtain ⟨c1, t1, hd1, hnw1, hne1, -, -⟩ := ppV_head (d+1) v
          simp only [wV, wE] at hw
          simp only [wfV, wfE, Bool.and_eq_true] at hwf
          have hone := ihV v (d+1) (ppE (d+1) vs ++ '\n' :: (ind d ++ ']' :: rest))
            (by omega) hwf.1 (goodCont_arrTail (d+1) d vs rest)
          have htwo := ihE vs (d+1) d rest (by omega) hwf.2
          have hone' : parseVal f
              (c1 :: (t1 ++ (ppE (d+1) vs ++ '\n' :: (ind d ++ ']' :: rest)))) =
              some (v, ppE (d+1) vs ++ '\n' :: (ind d ++ ']' :: rest)) := by
            rw [← List.cons_append, ← hd1]
            exact hone
          have hskipA : skipWs ('\n' :: (ind (d+1) ++ (ppV (d+1) v ++
              (ppE (d+1) vs ++ '\n' :: (ind d ++ ']' :: rest))))) =
              c1 :: (t1 ++ (ppE (d+1) vs ++ '\n' :: (ind d ++ ']' :: rest))) := by
            rw [skipWs_newline_ind, hd1, List.cons_append]
            exact skipWs_cons_not_ws _ hnw1
          show parseVal (f+1) (ppV d (.arr (v :: vs)) ++ rest) = some (.arr (v :: vs), rest)
          simp [ppV, parseVal, List.cons_append, List.append_assoc,
            skipWs_cons_not_ws _ (by decide : isWsChar '[' = false), hskipA, hne1,
            hone', htwo]
      | obj kvs =>
        cases kvs with
        | nil =>
          show parseVal (f+1) ((['\x7b', '\x7d'] : List Char) ++ rest) = some (.obj [], rest)
          simp [parseVal, skipWs_cons_not_ws, isWsChar]
        | cons p kvs =>
          obtain ⟨k, v⟩ := p
          simp only [wV, wM] at hw
          simp only [wfV, wfM, Bool.and_eq_true] at hwf
          have hone := ihV v (d+1) (ppM (d+1) kvs ++ '\n' :: (ind d ++ '\x7d' :: rest))
            (by omega) hwf.2.1 (goodCont_objTail (d+1) d kvs rest)
          have htwo := ihM kvs (d+1) d rest (by omega) hwf.2.2
          have hval' : parseVal f
              (' ' :: (ppV (d+1) v ++ (ppM (d+1) kvs ++ '\n' :: (ind d ++ '\x7d' :: rest)))) =
              some (v, ppM (d+1) kvs ++ '\n' :: (ind d ++ '\x7d' :: rest)) := by
            rw [parseVal_skipWs_eq f _ _ (skipWs_cons_ws _ (by decide))]
            exact hone
          have hsb : parseStr (escStr k.data ++ ('"' :: (':' :: (' ' :: (ppV (d+1) v ++
              (ppM (d+1) kvs ++ '\n' :: (ind d ++ '\x7d' :: rest))))))) =
              some (k.data, ':' :: (' ' :: (ppV (d+1) v ++
                (ppM (d+1) kvs ++ '\n' :: (ind d ++ '\x7d' :: rest))))) :=
            parseStr_print k.data _
          have hskipB : skipWs ('\n' :: (ind (d+1) ++ ('"' :: (escStr k.data ++
              ('"' :: (':' :: (' ' :: (ppV (d+1) v ++
                (ppM (d+1) kvs ++ '\n' :: (ind d ++ '\x7d' :: rest)))))))))) =
              '"' :: (escStr k.data ++ ('"' :: (':' :: (' ' :: (ppV (d+1) v ++
                (ppM (d+1) kvs ++ '\n' :: (ind d ++ '\x7d' :: rest))))))) := by
            rw [skipWs_newline_ind]
            exact skipWs_cons_not_ws _ (by decide)
          have hmk : mkDict ((k, v) :: kvs) = (k, v) :: kvs := mkDict_nodup _ hwf.1
          show parseVal (f+1) (ppV d (.obj ((k, v) :: kvs)) ++ rest) =
            some (.obj ((k, v) :: kvs), rest)
          simp [ppV, ppStr, parseVal, List.cons_append, List.append_assoc,
            skipWs_cons_not_ws _ (by decide : isWsChar '\x7b' = false), hskipB, hsb,
            skipWs_cons_not_ws _ (by decide : isWsChar ':' = false), hval', htwo,
            mk_data_eta, hmk]
    · -- array tails
      intro vs d e rest hw hwf
      cases vs with
      | nil =>
        have hsk : skipWs ('\n' :: (ind e ++ ']' :: rest)) = ']' :: rest := by
          rw [skipWs_newline_ind]
          exact skipWs_cons_not_ws _ (by decide)
        show parseElems (f+1) (([] : List Char) ++ '\n' :: (ind e ++ ']' :: rest)) =
          some ([], rest)
        simp [parseElems, hsk]
      | cons v vs =>
        simp only [wE] at hw
        simp only [wfE, Bool.and_eq_true] at hwf
        have hone := ihV v d (ppE d vs ++ '\n' :: (ind e ++ ']' :: rest))
          (by omega) hwf.1 (goodCont_arrTail d e vs rest)
        have htwo := ihE vs d e rest (by omega) hwf.2
        have hone' : parseVal f ('\n' :: (ind d ++ (ppV d v ++
            (ppE d vs ++ '\n' :: (ind e ++ ']' :: rest))))) =
            some (v, ppE d vs ++ '\n' :: (ind e ++ ']' :: rest)) := by
          rw [parseVal_skipWs_eq f _ _ (skipWs_newline_ind d _)]
          exact hone
        show parseElems (f+1) (ppE d (v :: vs) ++ '\n' :: (ind e ++ ']' :: rest)) =
          some (v :: vs, rest)
        simp [ppE, parseElems, List.cons_append, List.append_assoc,
          skipWs_cons_not_ws _ (by decide : isWsChar ',' = false), hone', htwo]
    · -- object tails
      intro kvs d e rest hw hwf
      cases kvs with
      | nil =>
        have hsk : skipWs ('\n' :: (ind e ++ '\x7d' :: rest)) = '\x7d' :: rest := by
          rw [skipWs_newline_ind]
          exact skipWs_cons_not_ws _ (by decide)
        show parseMembers (f+1) (([] : List Char) ++ '\n' :: (ind e ++ '\x7d' :: rest)) =
          some ([], rest)
        simp [parseMembers, hsk]
      | cons p kvs =>
        obtain ⟨k, v⟩ := p
        simp only [wM] at hw
        simp only [wfM, Bool.and_eq_true] at hwf
        have hone := ihV v d (ppM d kvs ++ '\n' :: (ind e ++ '\x7d' :: rest))
          (by omega) hwf.1 (goodCont_objTail d e kvs rest)
        have htwo := ihM kvs d e rest (by omega) hwf.2
        have hval' : parseVal f (' ' :: (ppV d v ++
            (ppM d kvs ++ '\n' :: (ind e ++ '\x7d' :: rest)))) =
            some (v, ppM d kvs ++ '\n' :: (ind e ++ '\x7d' :: rest)) := by
          rw [parseVal_skipWs_eq f _ _ (skipWs_cons_ws _ (by decide))]
          exact hone
        have hsb : parseStr (escStr k.data ++ ('"' :: (':' :: (' ' :: (ppV d v ++
            (ppM d kvs ++ '\n' :: (ind e ++ '\x7d' :: rest))))))) =
            some (k.data, ':' :: (' ' :: (ppV d v ++
              (ppM d kvs ++ '\n' :: (ind e ++ '\x7d' :: rest))))) :=
          parseStr_print k.data _
        have hskipB : skipWs ('\n' :: (ind d ++ ('"' :: (escStr k.data ++
            ('"' :: (':' :: (' ' :: (ppV d v ++
              (ppM d kvs ++ '\n' :: (ind e ++ '\x7d' :: rest)))))))))) =
            '"' :: (escStr k.data ++ ('"' :: (':' :: (' ' :: (ppV d v ++
              (ppM d kvs ++ '\n' :: (ind e ++ '\x7d' :: rest))))))) := by
          rw [skipWs_newline_ind]
          exact skipWs_cons_not_ws _ (by decide)
        show parseMembers (f+1) (ppM d ((k, v) :: kvs) ++ '\n' :: (ind e ++ '\x7d' :: rest)) =
          some ((k, v) :: kvs, rest)
        simp [ppM, ppStr, parseMembers, List.cons_append, List.append_assoc,
          skipWs_cons_not_ws _ (by decide : isWsChar ',' = false), hskipB, hsb,
          skipWs_cons_not_ws _ (by decide : isWsChar ':' = false), hval', htwo,
          mk_data_eta]

/-- `json.load` inverts `json.dump(·, indent=2)` on every value a Python
object can denote (all object key lists duplicate-free). -/
theorem parse_dump (j : Json) (h : wfV j = true) : Json.parse (Json.dump j) = some j := by
  have hfuel : wV j ≤ (ppV 0 j).length + 1 := by
    have := wV_le_len j 0
    omega
  have hpp := (parse_print_aux ((ppV 0 j).length + 1)).1 j 0 [] hfuel h trivial
  rw [List.append_nil] at hpp
  unfold Json.parse Json.dump
  rw [data_mk, hpp]
  rfl

/-! ## Well-formedness of the snapshots the script writes -/

theorem check_whois_wf (resp : HttpResult) (now : String) :
    wfV (Json.obj (check_whois_status resp now)) = true := by
  cases resp with
  | response code text =>
    by_cases h : code = 200 <;>
      simp [check_whois_status, h, wfV, wfM, nodupKeys, keyMem]
  | exn e => simp [check_whois_status, wfV, wfM, nodupKeys, keyMem]

theorem current_wf (t dc : String) (w : List (String × Json))
    (hw : wfV (Json.obj w) = true) :
    wfV (Json.obj
      [("timestamp", Json.str t), ("dropcatch", Json.str dc),
       ("whois", Json.obj w)]) = true := by
  simp only [wfV, wfM, nodupKeys, keyMem, Bool.and_eq_true] at hw ⊢
  simp_all

/-! ## Small helpers about `dict.get` and `main` -/

theorem pyGetD_of_ne (kvs : List (String × Json)) (k : String) (d1 d2 v : Json)
    (h : pyGetD kvs k d1 = v) (hne : v ≠ d1) : pyGetD kvs k d2 = v := by
  induction kvs with
  | nil =>
    simp only [pyGetD] at h
    exact absurd h.symm hne
  | cons p t ih =>
    obtain ⟨k1, v1⟩ := p
    simp only [pyGetD] at h ⊢
    by_cases hk : k1 = k
    · simpa [hk] using (by simpa [hk] using h)
    · simp only [hk, if_false] at h ⊢
      exact ih h

theorem asDict_obj (kvs : List (String × Json)) : asDict (Json.obj kvs) = Except.ok kvs := rfl

/-- Evaluation of `main` when the previous snapshot loads as a dict with a
dict-or-absent `whois` field. -/
theorem main_ok (inp : MainInput) (pk pw : List (String × Json))
    (hload : load_previous_status inp.file = Except.ok (Json.obj pk))
    (hwhois : asDict (pyGetD pk "whois" (Json.obj [])) = Except.ok pw) :
    main inp = Except.ok (mainCore inp pk pw) := by
  simp [main, hload, asDict_obj, hwhois, Bind.bind, Except.bind]

/-! ## Concrete inputs used by the witnesses -/

/-- An SMTP session where every operation succeeds. -/
def exSmtpOk : SmtpBehavior := ⟨none, none, none, none, none⟩

/-- An SMTP session whose `login` raises. -/
def exSmtpBadLogin : SmtpBehavior := ⟨none, none, some "535 authentication failed", none, none⟩

/-- Configuration with `SENDER_EMAIL` unset. -/
def exCfgMissing : EmailConfig := ⟨none, some "secret", some "me@example.com"⟩

/-- Fully populated configuration. -/
def exCfgFull : EmailConfig := ⟨some "bot@example.com", some "secret", some "me@example.com"⟩

/-- A first run: no status file, DropCatch 404, WHOIS 200 `active`. -/
def exInput : MainInput :=
  { file := none
    dropcatchHttp := .response 404 "oops"
    whoisHttp := .response 200 "Status: active"
    t_start := "2025-09-01 09:00:00"
    t_whois := "2025-09-01T09:00:01"
    t_snapshot := "2025-09-01T09:00:02"
    t_email := "2025-09-01 09:00:03"
    cfg := exCfgMissing
    smtp := exSmtpOk }

/-- A run whose previous snapshot matches the fresh checks (no changes). -/
def exInputNoChange : MainInput :=
  { exInput with
    file := some (Json.dump (Json.obj
      [("timestamp", Json.str "2025-08-31T09:00:02"),
       ("dropcatch", Json.str "NOT_AVAILABLE_YET")]))
    dropcatchHttp := .response 200 "No results"
    whoisHttp := .exn "timeout" }

/-- Scenario A: previously `NOT_AVAILABLE_YET`, now backorderable. -/
def exInputScenarioA : MainInput :=
  { exInput with
    file := some (Json.dump (Json.obj [("dropcatch", Json.str "NOT_AVAILABLE_YET")]))
    dropcatchHttp := .response 200 "Place a Backorder"
    whoisHttp := .exn "dns failure" }

/-- A run whose WHOIS check hits a transport failure after a recorded
`active` status. -/
def exInputWhoisFail : MainInput :=
  { exInput with
    file := some (Json.dump (Json.obj
      [("whois", Json.obj [("status", Json.str "active")])]))
    dropcatchHttp := .response 200 "no results"
    whoisHttp := .exn "connection reset by peer" }

/-- A run whose DropCatch check raises a transport exception. -/
def exInputDropFail : MainInput :=
  { exInput with
    dropcatchHttp := .exn "HTTPSConnectionPool: Read timed out."
    whoisHttp := .response 200 "Status: active"
    cfg := exCfgFull
    smtp := exSmtpBadLogin }

/-- The snapshot value used by the C9 witness. -/
def exSnapshot : Json :=
  Json.obj
    [("timestamp", Json.str "2025-09-01T09:00:02"),
     ("dropcatch", Json.str "NOT_AVAILABLE_YET"),
     ("whois", Json.obj
       [("status", Json.str "active"),
        ("checked_at", Json.str "2025-09-01T09:00:01"),
        ("source", Json.str "whois.net")])]

/-! ## The claims -/

/-- C9: Round-trip of the status store: saving any JSON-serializable
snapshot value (in the model: any `Json` value a Python object can denote,
i.e. with duplicate-free keys in every dict) with `save_current_status`
and then calling `load_previous_status` on the stored file yields exactly
the value saved — the store itself changes nothing. -/
theorem C9_store_roundtrip (j : Json) (h : wfV j = true) :
    load_previous_status (some (save_current_status j)) = Except.ok j := by
  simp [load_previous_status, save_current_status, parse_dump j h]

/-- Witness for C9 at a realistic snapshot. -/
theorem C9_store_roundtrip_witness :
    wfV exSnapshot = true ∧
    load_previous_status (some (save_current_status exSnapshot)) = Except.ok exSnapshot :=
  ⟨rfl, C9_store_roundtrip exSnapshot rfl⟩

/-- C2 counterexample: with the status file present but holding malformed
JSON, `load_previous_status` does not return the empty mapping — the
decode error propagates instead. -/
theorem C2_counterexample :
    load_previous_status (some "\x7b not json") =
      Except.error "json.decoder.JSONDecodeError" ∧
    load_previous_status (some "\x7b not json") ≠ Except.ok (Json.obj []) := by
  refine ⟨rfl, ?_⟩
  intro h
  rw [show load_previous_status (some "\x7b not json") =
    Except.error "json.decoder.JSONDecodeError" from rfl] at h
  exact Except.noConfusion h

/-- C2 amended: a present but malformed status file is NOT treated as "no
prior status": `load_previous_status` raises (the `json.JSONDecodeError`
propagates to the caller); only a missing file yields the empty mapping. -/
theorem C2_amended (contents : String) (h : Json.parse contents = none) :
    load_previous_status (some contents) = Except.error "json.decoder.JSONDecodeError" := by
  simp [load_previous_status, h]

/-- Witness for the amended C2 at a concrete malformed file. -/
theorem C2_amended_witness :
    Json.parse "\x7b not json" = none ∧
    load_previous_status (some "\x7b not json") =
      Except.error "json.decoder.JSONDecodeError" :=
  ⟨rfl, C2_amended "\x7b not json" rfl⟩

/-- C7: every response with a non-200 status code `C` classifies as exactly
`ERROR_{C}`, and no classification of the body is attempted: the result is
the same whatever the body text. -/
theorem C7_non200 (code : Nat) (text : String) (h : code ≠ 200) :
    check_dropcatch_status (.response code text) = "ERROR_" ++ String.mk (natToDigits code) ∧
    ∀ text2 : String, check_dropcatch_status (.response code text2) =
      check_dropcatch_status (.response code text) := by
  constructor
  · simp [check_dropcatch_status, h, intRepr]
  · intro text2
    simp [check_dropcatch_status, h]

/-- Witness for C7: a 404 yields `ERROR_404`. -/
theorem C7_non200_witness :
    check_dropcatch_status (.response 404 "some body") = "ERROR_404" :=
  Eq.trans (C7_non200 404 "some body" (by decide)).1 rfl

/-- C3: on an HTTP 200 response the body is lower-cased and classified by
the first matching rule, in order: both `backorder` and `place a
backorder` present → `AVAILABLE_FOR_BACKORDER` regardless of any other
content; otherwise `no results` or `not found` → `NOT_AVAILABLE_YET`;
otherwise `auction` → `IN_AUCTION`; otherwise `UNKNOWN_STATUS`. -/
theorem C3_dropcatch_classification (text : String) :
    (pyIn "backorder" (pyLower text) = true ∧ pyIn "place a backorder" (pyLower text) = true →
      check_dropcatch_status (.response 200 text) = "AVAILABLE_FOR_BACKORDER") ∧
    (¬(pyIn "backorder" (pyLower text) = true ∧ pyIn "place a backorder" (pyLower text) = true) →
      (pyIn "no results" (pyLower text) = true ∨ pyIn "not found" (pyLower text) = true) →
      check_dropcatch_status (.response 200 text) = "NOT_AVAILABLE_YET") ∧
    (¬(pyIn "backorder" (pyLower text) = true ∧ pyIn "place a backorder" (pyLower text) = true) →
      ¬(pyIn "no results" (pyLower text) = true ∨ pyIn "not found" (pyLower text) = true) →
      pyIn "auction" (pyLower text) = true →
      check_dropcatch_status (.response 200 text) = "IN_AUCTION") ∧
    (¬(pyIn "backorder" (pyLower text) = true ∧ pyIn "place a backorder" (pyLower text) = true) →
      ¬(pyIn "no results" (pyLower text) = true ∨ pyIn "not found" (pyLower text) = true) →
      pyIn "auction" (pyLower text) = false →
      check_dropcatch_status (.response 200 text) = "UNKNOWN_STATUS") := by
  refine ⟨?_, ?_, ?_, ?_⟩
  · intro h
    simp [check_dropcatch_status, h.1, h.2]
  · intro hn hor
    have hc1 : (pyIn "backorder" (pyLower text) && pyIn "place a backorder" (pyLower text)) =
        false := by
      cases hx : pyIn "backorder" (pyLower text) <;>
        cases hy : pyIn "place a backorder" (pyLower text) <;> simp_all
    rcases hor with h2 | h2 <;> simp [check_dropcatch_status, hc1, h2]
  · intro hn hor h3
    have hc1 : (pyIn "backorder" (pyLower text) && pyIn "place a backorder" (pyLower text)) =
        false := by
      cases hx : pyIn "backorder" (pyLower text) <;>
        cases hy : pyIn "place a backorder" (pyLower text) <;> simp_all
    have hc2 : (pyIn "no results" (pyLower text) || pyIn "not found" (pyLower text)) = false := by
      cases hx : pyIn "no results" (pyLower text) <;>
        cases hy : pyIn "not found" (pyLower text) <;> simp_all
    simp [check_dropcatch_status, hc1, hc2, h3]
  · intro hn hor h3
    have hc1 : (pyIn "backorder" (pyLower text) && pyIn "place a backorder" (pyLower text)) =
        false := by
      cases hx : pyIn "backorder" (pyLower text) <;>
        cases hy : pyIn "place a backorder" (pyLower text) <;> simp_all
    have hc2 : (pyIn "no results" (pyLower text) || pyIn "not found" (pyLower text)) = false := by
      cases hx : pyIn "no results" (pyLower text) <;>
        cases hy : pyIn "not found" (pyLower text) <;> simp_all
    simp [check_dropcatch_status, hc1, hc2, h3]

/-- Witness for C3, exercising all four classification outcomes. -/
theorem C3_dropcatch_classification_witness :
    check_dropcatch_status (.response 200 "You can Place a Backorder on this auction") =
      "AVAILABLE_FOR_BACKORDER" ∧
    check_dropcatch_status (.response 200 "No Results for this domain") = "NOT_AVAILABLE_YET" ∧
    check_dropcatch_status (.response 200 "This domain is in Auction") = "IN_AUCTION" ∧
    check_dropcatch_status (.response 200 "hello world") = "UNKNOWN_STATUS" :=
  ⟨(C3_dropcatch_classification "You can Place a Backorder on this auction").1 ⟨rfl, rfl⟩,
   (C3_dropcatch_classification "No Results for this domain").2.1 (by decide) (Or.inl rfl),
   (C3_dropcatch_classification "This domain is in Auction").2.2.1 (by decide) (by decide) rfl,
   (C3_dropcatch_classification "hello world").2.2.2 (by decide) (by decide) rfl⟩

theorem bind_ok_ex {α β : Type} (x : α) (f : α → Except String β) :
    (Except.ok x >>= f) = f x := rfl

theorem bind_error_ex {α β : Type} (e : String) (f : α → Except String β) :
    ((Except.error e : Except String α) >>= f) = Except.error e := rfl

/-- Every successful run of `main` is the pure computation on some loaded
dict and whois sub-dict. -/
theorem main_ok_inv (inp : MainInput) (r : RunResult) (h : main inp = Except.ok r) :
    ∃ pk pw, r = mainCore inp pk pw := by
  unfold main at h
  rcases hl : load_previous_status inp.file with e | p
  · rw [hl, bind_error_ex] at h
    exact Except.noConfusion h
  · rw [hl, bind_ok_ex] at h
    rcases hp : asDict p with e2 | pk
    · rw [hp, bind_error_ex] at h
      exact Except.noConfusion h
    · rw [hp, bind_ok_ex] at h
      rcases hw : asDict (pyGetD pk "whois" (Json.obj [])) with e3 | pw
      · rw [hw, bind_error_ex] at h
        exact Except.noConfusion h
      · rw [hw, bind_ok_ex] at h
        refine ⟨pk, pw, ?_⟩
        cases h
        rfl

/-- C4: on every completed run the notification step fires —
`send_simple_email` is called — because the guard `if changes or True:` is
short-circuited by the unconditional `True`; in particular an email send is
attempted even when the change list is empty. -/
theorem C4_email_fires_every_run (inp : MainInput) (r : RunResult)
    (h : main inp = Except.ok r) : r.email_attempted = true := by
  obtain ⟨pk, pw, rfl⟩ := main_ok_inv inp r h
  simp [mainCore]

/-- Witness for C4: a run with an empty change list still attempts the send. -/
theorem C4_email_fires_every_run_witness :
    ∃ r, main exInputNoChange = Except.ok r ∧ r.changes = [] ∧ r.email_attempted = true :=
  ⟨_, rfl, rfl, C4_email_fires_every_run exInputNoChange _ rfl⟩

/-- C5: the notifier is fail-soft and never blocks the run.  Missing
configuration (any of sender, password, recipient unset or empty) →
`send_simple_email` returns `False` and no SMTP connection is attempted;
an exception in any SMTP step → caught, `False` returned (message building
cannot raise, and by the `except` boundary nothing propagates — the
function's result type carries no exception); and every completed run
still persists the snapshot and prints the four summary lines, whatever
the configuration and SMTP behaviour. -/
theorem C5_notifier_fail_soft :
    (∀ (cfg : EmailConfig) (smtp : SmtpBehavior) (s b : String),
      ¬(truthy cfg.sender_email = true ∧ truthy cfg.sender_password = true ∧
        truthy cfg.recipient = true) →
      send_simple_email cfg smtp s b = (false, false)) ∧
    (∀ (cfg : EmailConfig) (smtp : SmtpBehavior) (s b : String),
      (smtp.connectErr ≠ none ∨ smtp.starttlsErr ≠ none ∨ smtp.loginErr ≠ none ∨
        smtp.sendErr ≠ none ∨ smtp.quitErr ≠ none) →
      (send_simple_email cfg smtp s b).1 = false) ∧
    (∀ (inp : MainInput) (pk pw : List (String × Json)),
      load_previous_status inp.file = Except.ok (Json.obj pk) →
      asDict (pyGetD pk "whois" (Json.obj [])) = Except.ok pw →
      ∃ r, main inp = Except.ok r ∧
        r.file_contents = save_current_status (Json.obj
          [("timestamp", Json.str inp.t_snapshot),
           ("dropcatch", Json.str (check_dropcatch_status inp.dropcatchHttp)),
           ("whois", Json.obj (check_whois_status inp.whoisHttp inp.t_whois))]) ∧
        r.summary.length = 4) := by
  refine ⟨?_, ?_, ?_⟩
  · intro cfg smtp s b h
    have hcond : (truthy cfg.sender_email && truthy cfg.sender_password &&
        truthy cfg.recipient) = false := by
      cases h1 : truthy cfg.sender_email <;> cases h2 : truthy cfg.sender_password <;>
        cases h3 : truthy cfg.recipient <;> simp_all
    simp [send_simple_email, send_simple_email_act, hcond]
  · intro cfg smtp s b h
    obtain ⟨c1, c2, c3, c4, c5⟩ := smtp
    unfold send_simple_email send_simple_email_act
    cases c1 <;> cases c2 <;> cases c3 <;> cases c4 <;> cases c5 <;> split_ifs <;> simp_all
  · intro inp pk pw hload hwh
    refine ⟨mainCore inp pk pw, main_ok inp pk pw hload hwh, ?_, ?_⟩
    · simp [mainCore]
    · simp [mainCore]

/-- Witness for C5: unset sender → skipped without SMTP; failing login →
`False`; and the surrounding run persists and prints anyway. -/
theorem C5_notifier_fail_soft_witness :
    send_simple_email exCfgMissing exSmtpOk "subj" "body" = (false, false) ∧
    (send_simple_email exCfgFull exSmtpBadLogin "subj" "body").1 = false ∧
    (∃ r, main exInput = Except.ok r ∧
      r.file_contents = save_current_status (Json.obj
        [("timestamp", Json.str exInput.t_snapshot),
         ("dropcatch", Json.str (check_dropcatch_status exInput.dropcatchHttp)),
         ("whois", Json.obj (check_whois_status exInput.whoisHttp exInput.t_whois))]) ∧
      r.summary.length = 4) :=
  ⟨C5_notifier_fail_soft.1 exCfgMissing exSmtpOk "subj" "body" (by decide),
   C5_notifier_fail_soft.2.1 exCfgFull exSmtpBadLogin "subj" "body"
     (Or.inr (Or.inr (Or.inl (by decide)))),
   C5_notifier_fail_soft.2.2 exInput [] [] rfl rfl⟩

/-- C6: Scenario A — the previous snapshot records dropcatch
`NOT_AVAILABLE_YET` and the fresh DropCatch check returns
`AVAILABLE_FOR_BACKORDER`: the change list contains the transition line
and the critical flag is set. -/
theorem C6_scenario_A (inp : MainInput) (pk pw : List (String × Json))
    (hload : load_previous_status inp.file = Except.ok (Json.obj pk))
    (hwh : asDict (pyGetD pk "whois" (Json.obj [])) = Except.ok pw)
    (hprev : pyGetD pk "dropcatch" Json.null = Json.str "NOT_AVAILABLE_YET")
    (hnew : check_dropcatch_status inp.dropcatchHttp = "AVAILABLE_FOR_BACKORDER") :
    ∃ r, main inp = Except.ok r ∧
      "DropCatch: NOT_AVAILABLE_YET -> AVAILABLE_FOR_BACKORDER" ∈ r.changes ∧
      r.critical_alert = true := by
  have hprev2 : pyGetD pk "dropcatch" (Json.str "unknown") = Json.str "NOT_AVAILABLE_YET" :=
    pyGetD_of_ne pk "dropcatch" Json.null (Json.str "unknown") _ hprev (by simp)
  have hdc : (!pyEq (pyGetD pk "dropcatch" Json.null)
      (Json.str "AVAILABLE_FOR_BACKORDER")) = true := by
    rw [hprev]
    rfl
  refine ⟨mainCore inp pk pw, main_ok inp pk pw hload hwh, ?_, ?_⟩
  · simp [mainCore, pyGet, hnew, hdc, hprev2, pyStr]
  · simp [mainCore, pyGet, hnew, hdc]

/-- Witness for C6 at Scenario A exactly as the spec poses it. -/
theorem C6_scenario_A_witness :
    ∃ r, main exInputScenarioA = Except.ok r ∧
      "DropCatch: NOT_AVAILABLE_YET -> AVAILABLE_FOR_BACKORDER" ∈ r.changes ∧
      r.critical_alert = true :=
  C6_scenario_A exInputScenarioA [("dropcatch", Json.str "NOT_AVAILABLE_YET")] []
    rfl rfl rfl rfl

/-- C8: with no prior status file, `load_previous_status` yields the empty
mapping rather than an error, and a completed run writes the freshly
computed snapshot (timestamp, dropcatch, whois) to the status file — the
written contents parse back to exactly that snapshot. -/
theorem C8_first_run (inp : MainInput) (hfile : inp.file = none) :
    load_previous_status none = Except.ok (Json.obj []) ∧
    ∃ r, main inp = Except.ok r ∧
      r.file_contents = save_current_status (Json.obj
        [("timestamp", Json.str inp.t_snapshot),
         ("dropcatch", Json.str (check_dropcatch_status inp.dropcatchHttp)),
         ("whois", Json.obj (check_whois_status inp.whoisHttp inp.t_whois))]) ∧
      Json.parse r.file_contents = some (Json.obj
        [("timestamp", Json.str inp.t_snapshot),
         ("dropcatch", Json.str (check_dropcatch_status inp.dropcatchHttp)),
         ("whois", Json.obj (check_whois_status inp.whoisHttp inp.t_whois))]) := by
  have hload : load_previous_status inp.file = Except.ok (Json.obj []) := by
    rw [hfile]
    rfl
  have hwh : asDict (pyGetD ([] : List (String × Json)) "whois" (Json.obj [])) =
      Except.ok ([] : List (String × Json)) := rfl
  refine ⟨rfl, mainCore inp [] [], main_ok inp [] [] hload hwh, ?_, ?_⟩
  · simp [mainCore]
  · have hfc : (mainCore inp [] []).file_contents = save_current_status (Json.obj
        [("timestamp", Json.str inp.t_snapshot),
         ("dropcatch", Json.str (check_dropcatch_status inp.dropcatchHttp)),
         ("whois", Json.obj (check_whois_status inp.whoisHttp inp.t_whois))]) := by
      simp [mainCore]
    rw [hfc]
    exact parse_dump _ (current_wf _ _ _ (check_whois_wf _ _))

/-- Witness for C8 on a concrete first run. -/
theorem C8_first_run_witness :
    load_previous_status none = Except.ok (Json.obj []) ∧
    ∃ r, main exInput = Except.ok r ∧
      r.file_contents = save_current_status (Json.obj
        [("timestamp", Json.str exInput.t_snapshot),
         ("dropcatch", Json.str (check_dropcatch_status exInput.dropcatchHttp)),
         ("whois", Json.obj (check_whois_status exInput.whoisHttp exInput.t_whois))]) ∧
      Json.parse r.file_contents = some (Json.obj
        [("timestamp", Json.str exInput.t_snapshot),
         ("dropcatch", Json.str (check_dropcatch_status exInput.dropcatchHttp)),
         ("whois", Json.obj (check_whois_status exInput.whoisHttp exInput.t_whois))]) :=
  C8_first_run exInput rfl

/-- C10: when the WHOIS check fails (its dict carries an `error` key and no
`status` key) while the previous snapshot recorded WHOIS status `S`, the
change detector reports the line `WHOIS: S -> unknown`, and the whois
branch never sets the critical flag: the flag equals the dropcatch-only
condition. -/
theorem C10_whois_failure_reported (inp : MainInput) (pk pw : List (String × Json))
    (S msg : String)
    (hload : load_previous_status inp.file = Except.ok (Json.obj pk))
    (hwh : asDict (pyGetD pk "whois" (Json.obj [])) = Except.ok pw)
    (hprevS : pyGetD pw "status" Json.null = Json.str S)
    (hfail : check_whois_status inp.whoisHttp inp.t_whois = [("error", Json.str msg)]) :
    ∃ r, main inp = Except.ok r ∧
      ("WHOIS: " ++ S ++ " -> unknown") ∈ r.changes ∧
      r.critical_alert = (!pyEq (pyGet pk "dropcatch")
        (Json.str (check_dropcatch_status inp.dropcatchHttp)) &&
        (check_dropcatch_status inp.dropcatchHttp == "AVAILABLE_FOR_BACKORDER")) := by
  have hprevS2 : pyGetD pw "status" (Json.str "unknown") = Json.str S :=
    pyGetD_of_ne pw "status" Json.null (Json.str "unknown") _ hprevS (by simp)
  have hwc2 : pyEq (pyGetD pw "status" Json.null) Json.null = false := by
    rw [hprevS]
    rfl
  have hlit : (" -> " ++ "unknown" : String) = " -> unknown" := rfl
  have hline : "WHOIS: " ++ S ++ " -> " ++ "unknown" = "WHOIS: " ++ S ++ " -> unknown" := by
    rw [String.append_assoc, hlit]
  refine ⟨mainCore inp pk pw, main_ok inp pk pw hload hwh, ?_, ?_⟩
  · simp [mainCore, pyGet, hfail, hwc2, hprevS2, pyStr, pyGetD, hline]
  · simp [mainCore, pyGet, hfail, hwc2, hprevS2, pyEq, pyGetD]

/-- Witness for C10: a previously `active` WHOIS status and a connection
reset produce the `WHOIS: active -> unknown` change line without the
critical flag. -/
theorem C10_whois_failure_reported_witness :
    ∃ r, main exInputWhoisFail = Except.ok r ∧
      ("WHOIS: " ++ "active" ++ " -> unknown") ∈ r.changes ∧
      r.critical_alert = (!pyEq (pyGet [("whois", Json.obj [("status", Json.str "active")])]
        "dropcatch") (Json.str (check_dropcatch_status exInputWhoisFail.dropcatchHttp)) &&
        (check_dropcatch_status exInputWhoisFail.dropcatchHttp == "AVAILABLE_FOR_BACKORDER")) :=
  C10_whois_failure_reported exInputWhoisFail
    [("whois", Json.obj [("status", Json.str "active")])]
    [("status", Json.str "active")] "active" "connection reset by peer" rfl rfl rfl rfl

/-- C1: a transport exception inside the DropCatch check never propagates:
`check_dropcatch_status` returns the `ERROR: `-prefixed message, and a run
of `main` whose DropCatch check fails this way still completes — it
returns a result rather than an exception, the comparison ran, the status
file is still written with the error string recorded in the snapshot, and
the four summary lines are printed. -/
theorem C1_transport_fail_soft (inp : MainInput) (e : String) (pk pw : List (String × Json))
    (hdrop : inp.dropcatchHttp = HttpResult.exn e)
    (hload : load_previous_status inp.file = Except.ok (Json.obj pk))
    (hwh : asDict (pyGetD pk "whois" (Json.obj [])) = Except.ok pw) :
    check_dropcatch_status inp.dropcatchHttp = "ERROR: " ++ e ∧
    ∃ r, main inp = Except.ok r ∧
      Json.parse r.file_contents = some (Json.obj
        [("timestamp", Json.str inp.t_snapshot),
         ("dropcatch", Json.str ("ERROR: " ++ e)),
         ("whois", Json.obj (check_whois_status inp.whoisHttp inp.t_whois))]) ∧
      r.summary =
        ["Current Status:",
         "   DropCatch: " ++ ("ERROR: " ++ e),
         "   WHOIS: " ++ pyStr (pyGetD (check_whois_status inp.whoisHttp inp.t_whois)
           "status" (Json.str "error")),
         "Direct link: https://www.dropcatch.com/domain/" ++ DOMAIN] := by
  have hcd : check_dropcatch_status inp.dropcatchHttp = "ERROR: " ++ e := by
    rw [hdrop]
    rfl
  refine ⟨hcd, mainCore inp pk pw, main_ok inp pk pw hload hwh, ?_, ?_⟩
  · have hfc : (mainCore inp pk pw).file_contents = save_current_status (Json.obj
        [("timestamp", Json.str inp.t_snapshot),
         ("dropcatch", Json.str (check_dropcatch_status inp.dropcatchHttp)),
         ("whois", Json.obj (check_whois_status inp.whoisHttp inp.t_whois))]) := by
      simp [mainCore]
    rw [hfc, hcd]
    exact parse_dump _ (current_wf _ _ _ (check_whois_wf _ _))
  · simp [mainCore, hcd]

/-- Witness for C1: a read timeout on DropCatch still completes the run. -/
theorem C1_transport_fail_soft_witness :
    check_dropcatch_status exInputDropFail.dropcatchHttp =
      "ERROR: " ++ "HTTPSConnectionPool: Read timed out." ∧
    ∃ r, main exInputDropFail = Except.ok r ∧
      Json.parse r.file_contents = some (Json.obj
        [("timestamp", Json.str exInputDropFail.t_snapshot),
         ("dropcatch", Json.str ("ERROR: " ++ "HTTPSConnectionPool: Read timed out.")),
         ("whois", Json.obj (check_whois_status exInputDropFail.whoisHttp
           exInputDropFail.t_whois))]) ∧
      r.summary =
        ["Current Status:",
         "   DropCatch: " ++ ("ERROR: " ++ "HTTPSConnectionPool: Read timed out."),
         "   WHOIS: " ++ pyStr (pyGetD (check_whois_status exInputDropFail.whoisHttp
           exInputDropFail.t_whois) "status" (Json.str "error")),
         "Direct link: https://www.dropcatch.com/domain/" ++ DOMAIN] :=
  C1_transport_fail_soft exInputDropFail "HTTPSConnectionPool: Read timed out." [] []
    rfl rfl rfl

end Monitor
